import Mathlib

/-!
Shallow embedding of the media-ingestion and tool-dispatch pipeline of the
vid-analysis repository (src/api.ts and src/App.tsx), together with theorems
settling the specification claims about it.
-/

namespace VidAnalysis

/-! ## Data model for src/api.ts

The source compares the remote file state against raw strings
("PROCESSING", "FAILED"), so states are modelled as strings; the claim's
Pending maps to "PROCESSING" and Ready to "ACTIVE". -/

/-- A remote processing state as reported by one status query. -/
abbrev FileState := String

/-- The file object returned by the final status query in uploadFile
    (src/api.ts line 81); only its state field matters to the claims. -/
structure GetFile where
  state : FileState
deriving DecidableEq

/-- The error thrown by uploadFile at src/api.ts line 78 when the remote
    reports a terminal FAILED state. -/
inductive UploadError where
  | processingFailed
deriving DecidableEq

/-- The polling loop of uploadFile (src/api.ts lines 62-75): one initial
    status query, then while the last reported state is "PROCESSING" query
    again.  Input is the sequence of states the remote reports, one per
    query; the result is the first non-"PROCESSING" state together with the
    number of status queries issued, or none when the simulated sequence is
    exhausted while still processing (the real loop would keep polling). -/
def pollStatus : List FileState → Option (FileState × Nat)
  | [] => none
  | s :: rest =>
    if s = "PROCESSING" then
      match pollStatus rest with
      | none => none
      | some (f, n) => some (f, n + 1)
    else
      some (s, 1)

/-- uploadFile (src/api.ts lines 52-82) after the initial upload call: poll
    until a non-"PROCESSING" state, throw when that state is "FAILED",
    otherwise return the file.  The Nat is the number of status queries. -/
def uploadFileSim (statuses : List FileState) :
    Option (Except UploadError (GetFile × Nat)) :=
  match pollStatus statuses with
  | none => none
  | some (f, n) =>
    if f = "FAILED" then some (Except.error UploadError.processingFailed)
    else some (Except.ok (⟨f⟩, n))

/-- For k reported "PROCESSING" states followed by a non-"PROCESSING" state,
    the loop issues exactly k + 1 queries and stops there. -/
theorem pollStatus_replicate (k : Nat) (s : FileState) (rest : List FileState)
    (hs : s ≠ "PROCESSING") :
    pollStatus (List.replicate k "PROCESSING" ++ s :: rest) = some (s, k + 1) := by
  induction k with
  | zero => simp [pollStatus, hs]
  | succ n ih => simp [pollStatus, List.replicate_succ, ih]

/-- C1: for a simulated status sequence of k "PROCESSING" reports followed by
    "ACTIVE" (Ready), uploadFile issues exactly k + 1 status queries (one per
    reported state), ignores anything after the first non-pending state, and
    returns a file whose state is "ACTIVE"; in particular the sequence
    [Pending, Pending, Ready] takes exactly 3 queries. -/
theorem uploadFile_poll_count (k : Nat) (rest : List FileState) :
    uploadFileSim (List.replicate k "PROCESSING" ++ "ACTIVE" :: rest)
      = some (Except.ok (⟨"ACTIVE"⟩, k + 1))
    ∧ uploadFileSim ["PROCESSING", "PROCESSING", "ACTIVE"]
      = some (Except.ok (⟨"ACTIVE"⟩, 3)) := by
  constructor
  · have h := pollStatus_replicate k "ACTIVE" rest (by decide)
    simp [uploadFileSim, h]
  · rfl

/-! ## Data model for src/App.tsx: timecodes and the tool-call dispatcher -/

/-- The Timecode interface of src/App.tsx lines 35-40: a timestamp with
    optional free text, optional object labels and optional numeric value.
    The numeric value is modelled as an integer. -/
structure Timecode where
  time : String
  text : Option String
  objects : Option (List String)
  value : Option Int
deriving DecidableEq

/-- The backslash character (code 92). -/
def backslashChar : Char := Char.ofNat 92

/-- The apostrophe character (code 39). -/
def squoteChar : Char := Char.ofNat 39

/-- Left-to-right, non-overlapping global replacement of the two-character
    pattern backslash-apostrophe by a single apostrophe, the effect of the
    regex replace at src/App.tsx line 93. -/
def replaceEscapedQuote : List Char → List Char
  | [] => []
  | [c] => [c]
  | c1 :: c2 :: rest =>
    if c1 = backslashChar ∧ c2 = squoteChar then
      squoteChar :: replaceEscapedQuote rest
    else
      c1 :: replaceEscapedQuote (c2 :: rest)

/-- String form of the escaped-apostrophe normalization. -/
def normalizeText (s : String) : String :=
  String.mk (replaceEscapedQuote s.data)

/-- A runtime failure of the dispatch expression at src/App.tsx lines
    138-146: either the table lookup produced undefined and calling it threw
    (unknown tool name), or an item's text was undefined and calling replace
    on it threw (src/App.tsx line 93). -/
inductive DispatchError where
  | calledUndefined (name : String)
  | textUndefined
deriving DecidableEq

/-- The setTimecodes handler of src/App.tsx lines 90-94: map over the items,
    normalizing each item's text and keeping every other field; the non-null
    assertion on text means an item with absent text throws before any list
    is produced. -/
def setTimecodes : List Timecode → Except DispatchError (List Timecode)
  | [] => Except.ok []
  | t :: ts =>
    match t.text with
    | none => Except.error DispatchError.textUndefined
    | some s =>
      match setTimecodes ts with
      | Except.error e => Except.error e
      | Except.ok out =>
        Except.ok ({ t with text := some (normalizeText s) } :: out)

/-- The set_timecodes_with_numeric_values handler of src/App.tsx lines
    141-145: pass the items through to setTimecodeList unchanged. -/
def setTimecodesWithNumericValues (timecodes : List Timecode) :
    Except DispatchError (List Timecode) :=
  Except.ok timecodes

/-- One requested function call from the generation response: a name and the
    timecodes field of its argument mapping (the only argument every handler
    destructures). -/
structure FunctionCall where
  name : String
  args : List Timecode
deriving DecidableEq

/-- The dispatch table literal of src/App.tsx lines 138-146, keyed by tool
    name; an unknown name looks up to undefined (none). -/
def handlerFor (n : String) :
    Option (List Timecode → Except DispatchError (List Timecode)) :=
  if n = "set_timecodes" then some setTimecodes
  else if n = "set_timecodes_with_objects" then some setTimecodes
  else if n = "set_timecodes_with_numeric_values" then
    some setTimecodesWithNumericValues
  else none

/-- resp.functionCalls?.[0] (src/App.tsx line 135): the first call of the
    response's call list, or none when the list is absent or empty. -/
def firstCall (functionCalls : Option (List FunctionCall)) :
    Option FunctionCall :=
  functionCalls.bind List.head?

/-- The dispatch step of src/App.tsx lines 135-147 acting on the current
    timecodeList state: no call means no state change; otherwise the first
    call's name is looked up and the handler applied to its arguments, the
    ok value being the new timecodeList. -/
def dispatch (functionCalls : Option (List FunctionCall))
    (timecodeList : Option (List Timecode)) :
    Except DispatchError (Option (List Timecode)) :=
  match firstCall functionCalls with
  | none => Except.ok timecodeList
  | some call =>
    match handlerFor call.name with
    | none => Except.error (DispatchError.calledUndefined call.name)
    | some h => (h call.args).map (fun ts => some ts)

/-- The timecodeList state after the dispatch step: a thrown error leaves
    the previous list in place, since setTimecodeList is only reached on
    success. -/
def dispatchState (functionCalls : Option (List FunctionCall))
    (timecodeList : Option (List Timecode)) : Option (List Timecode) :=
  match dispatch functionCalls timecodeList with
  | Except.ok st => st
  | Except.error _ => timecodeList

/-- C3: with a non-empty call list the dispatcher behaves exactly as on the
    singleton of the first call (later calls have no effect), and the
    handler bound to the first call's name is invoked with that call's
    argument mapping. -/
theorem dispatch_first_call_only (call : FunctionCall)
    (rest : List FunctionCall) (timecodeList : Option (List Timecode)) :
    dispatch (some (call :: rest)) timecodeList
      = dispatch (some [call]) timecodeList
    ∧ (∀ h, handlerFor call.name = some h →
        dispatch (some (call :: rest)) timecodeList
          = (h call.args).map (fun ts => some ts)) := by
  constructor
  · rfl
  · intro h hh
    simp [dispatch, firstCall, hh]

/-- Concrete instance of C3: with two set_timecodes calls queued, only the
    first is dispatched. -/
theorem dispatch_first_call_only_witness :
    dispatch (some [⟨"set_timecodes", [⟨"00:01", some "one", none, none⟩]⟩,
                    ⟨"set_timecodes", [⟨"00:02", some "two", none, none⟩]⟩])
        none
      = dispatch (some [⟨"set_timecodes", [⟨"00:01", some "one", none, none⟩]⟩])
        none
    ∧ dispatch (some [⟨"set_timecodes", [⟨"00:01", some "one", none, none⟩]⟩,
                      ⟨"set_timecodes", [⟨"00:02", some "two", none, none⟩]⟩])
        none
      = (setTimecodes [⟨"00:01", some "one", none, none⟩]).map
          (fun ts => some ts) :=
  ⟨(dispatch_first_call_only ⟨"set_timecodes", [⟨"00:01", some "one", none, none⟩]⟩
      [⟨"set_timecodes", [⟨"00:02", some "two", none, none⟩]⟩] none).1,
   (dispatch_first_call_only ⟨"set_timecodes", [⟨"00:01", some "one", none, none⟩]⟩
      [⟨"set_timecodes", [⟨"00:02", some "two", none, none⟩]⟩] none).2
     setTimecodes rfl⟩

/-- C4: with an absent or empty function-call list the dispatch step raises
    no error and leaves the timecodeList state exactly as it was. -/
theorem dispatch_empty_noop (timecodeList : Option (List Timecode)) :
    dispatch none timecodeList = Except.ok timecodeList
    ∧ dispatch (some []) timecodeList = Except.ok timecodeList
    ∧ dispatchState none timecodeList = timecodeList
    ∧ dispatchState (some []) timecodeList = timecodeList := by
  refine ⟨rfl, rfl, rfl, rfl⟩

/-- C5: a first call whose name is none of the three declared tool names
    makes the dispatcher throw (the table lookup yields undefined and
    calling it fails) and leaves the timecodeList state unchanged. -/
theorem dispatch_unknown_name (call : FunctionCall)
    (rest : List FunctionCall) (timecodeList : Option (List Timecode))
    (h1 : call.name ≠ "set_timecodes")
    (h2 : call.name ≠ "set_timecodes_with_objects")
    (h3 : call.name ≠ "set_timecodes_with_numeric_values") :
    dispatch (some (call :: rest)) timecodeList
      = Except.error (DispatchError.calledUndefined call.name)
    ∧ dispatchState (some (call :: rest)) timecodeList = timecodeList := by
  have hh : handlerFor call.name = none := by
    simp [handlerFor, h1, h2, h3]
  constructor
  · simp [dispatch, firstCall, hh]
  · simp [dispatchState, dispatch, firstCall, hh]

/-- Concrete instance of C5: a call named "set_subtitles" throws and the
    previous result list survives. -/
theorem dispatch_unknown_name_witness :
    dispatch (some [⟨"set_subtitles", []⟩]) (some [⟨"00:01", some "x", none, none⟩])
      = Except.error (DispatchError.calledUndefined "set_subtitles")
    ∧ dispatchState (some [⟨"set_subtitles", []⟩])
        (some [⟨"00:01", some "x", none, none⟩])
      = some [⟨"00:01", some "x", none, none⟩] :=
  dispatch_unknown_name ⟨"set_subtitles", []⟩ []
    (some [⟨"00:01", some "x", none, none⟩])
    (by decide) (by decide) (by decide)

/-- When every item carries text, setTimecodes succeeds and returns the
    items with text normalized and every other field unchanged. -/
theorem setTimecodes_ok (timecodes : List Timecode)
    (h : ∀ t ∈ timecodes, t.text ≠ none) :
    setTimecodes timecodes
      = Except.ok (timecodes.map
          (fun t => { t with text := Option.map normalizeText t.text })) := by
  induction timecodes with
  | nil => rfl
  | cons t ts ih =>
    have ht : t.text ≠ none := h t (List.mem_cons_self t ts)
    have hts : ∀ u ∈ ts, u.text ≠ none := fun u hu => h u (List.mem_cons_of_mem t hu)
    cases hcase : t.text with
    | none => exact absurd hcase ht
    | some s =>
      simp [setTimecodes, hcase, ih hts, Option.map]

/-- Counterexample to C6 as stated: the timecode-producing tool
    set_timecodes_with_numeric_values passes its items through unchanged, so
    for an item whose text holds a backslash-escaped apostrophe the produced
    text is not the normalized form the claim requires. -/
theorem numeric_values_not_normalized :
    dispatch (some [⟨"set_timecodes_with_numeric_values",
        [⟨"00:01", some "A\\'B", none, some 1⟩]⟩]) none
      = Except.ok (some [⟨"00:01", some "A\\'B", none, some 1⟩])
    ∧ normalizeText "A\\'B" = "A'B"
    ∧ ("A\\'B" : String) ≠ "A'B" := by
  refine ⟨rfl, rfl, by decide⟩

/-- C6 amended: the normalization holds for the two tools bound to the
    setTimecodes handler (set_timecodes and set_timecodes_with_objects), on
    calls all of whose items carry text: each produced item's text is the
    argument text with every backslash-escaped apostrophe rewritten to a
    plain apostrophe and every other field unchanged; in particular a
    set_timecodes call with one item of text A\'B yields one item of text
    A'B.  The third tool, set_timecodes_with_numeric_values, passes items
    through without this normalization. -/
theorem dispatch_normalizes_text (nm : String) (timecodes : List Timecode)
    (rest : List FunctionCall) (timecodeList : Option (List Timecode))
    (hn : nm = "set_timecodes" ∨ nm = "set_timecodes_with_objects")
    (ht : ∀ t ∈ timecodes, t.text ≠ none) :
    dispatch (some (⟨nm, timecodes⟩ :: rest)) timecodeList
      = Except.ok (some (timecodes.map
          (fun t => { t with text := Option.map normalizeText t.text })))
    ∧ dispatch (some [⟨"set_timecodes", [⟨"00:01", some "A\\'B", none, none⟩]⟩])
        none
      = Except.ok (some [⟨"00:01", some "A'B", none, none⟩]) := by
  constructor
  · have hh : handlerFor nm = some setTimecodes := by
      cases hn with
      | inl h => simp [handlerFor, h]
      | inr h => simp [handlerFor, h]
    simp [dispatch, firstCall, hh, setTimecodes_ok timecodes ht, Except.map]
  · rfl

/-- Concrete instance of the amended C6: a set_timecodes_with_objects call
    is normalized just like set_timecodes. -/
theorem dispatch_normalizes_text_witness :
    dispatch (some [⟨"set_timecodes_with_objects",
        [⟨"00:02", some "it\\'s", some ["cat"], none⟩]⟩]) none
      = Except.ok (some [⟨"00:02", some "it's", some ["cat"], none⟩])
    ∧ dispatch (some [⟨"set_timecodes", [⟨"00:01", some "A\\'B", none, none⟩]⟩])
        none
      = Except.ok (some [⟨"00:01", some "A'B", none, none⟩]) :=
  dispatch_normalizes_text "set_timecodes_with_objects"
    [⟨"00:02", some "it\\'s", some ["cat"], none⟩] [] none
    (Or.inr rfl) (by decide)

/-- C10: any set_timecodes or set_timecodes_with_objects call containing an
    item with absent text makes the shared handler throw instead of
    producing a result list; both tool names are bound to that handler. -/
theorem setTimecodes_requires_text (timecodes : List Timecode)
    (h : ∃ t ∈ timecodes, t.text = none) :
    setTimecodes timecodes = Except.error DispatchError.textUndefined
    ∧ handlerFor "set_timecodes" = some setTimecodes
    ∧ handlerFor "set_timecodes_with_objects" = some setTimecodes := by
  refine ⟨?_, rfl, rfl⟩
  induction timecodes with
  | nil => simp at h
  | cons t ts ih =>
    rcases h with ⟨u, hu, hnone⟩
    rcases List.mem_cons.mp hu with heq | hmem
    · subst heq
      simp [setTimecodes, hnone]
    · cases hcase : t.text with
      | none => simp [setTimecodes, hcase]
      | some s => simp [setTimecodes, hcase, ih ⟨u, hmem, hnone⟩]

/-- Concrete instance of C10: one item without text makes the handler
    throw. -/
theorem setTimecodes_requires_text_witness :
    setTimecodes [⟨"00:01", none, none, none⟩]
      = Except.error DispatchError.textUndefined
    ∧ handlerFor "set_timecodes" = some setTimecodes
    ∧ handlerFor "set_timecodes_with_objects" = some setTimecodes :=
  setTimecodes_requires_text [⟨"00:01", none, none, none⟩]
    ⟨⟨"00:01", none, none, none⟩, List.mem_singleton.mpr rfl, rfl⟩

/-! ## The uploadVideo pipeline entry of src/App.tsx lines 153-182 -/

/-- The JS prefix test used at src/App.tsx line 165
    (droppedFile.type.startsWith): embedded over the character lists since
    the claims evaluate it on concrete strings. -/
def strStartsWith (s pre : String) : Bool :=
  pre.data.isPrefixOf s.data

/-- A dropped file: its media type and its display name. -/
structure DroppedFile where
  type : String
  name : String
deriving DecidableEq

/-- The slice of App state that uploadVideo touches: vidUrl, file,
    isLoadingVideo and videoError (src/App.tsx lines 43-57). -/
structure AppVideoState where
  vidUrl : Option String
  file : Option GetFile
  isLoadingVideo : Bool
  videoError : Bool
deriving DecidableEq

/-- URL.createObjectURL, modelled as a deterministic blob URL for the
    dropped file. -/
def createObjectURL (f : DroppedFile) : String :=
  "blob:" ++ f.name

/-- The outcome of one uploadVideo run: the resulting state slice, whether
    the remote upload call was issued, and whether generateContent was
    invoked (uploadVideo itself never calls it; generation happens only in
    onModeSelect). -/
structure PipelineOutcome where
  state : AppVideoState
  uploadCalled : Bool
  generateCalled : Bool
deriving DecidableEq

/-- uploadVideo (src/App.tsx lines 153-182): set loading, clear the error;
    no dropped file just un-sets loading; a non-video/ media type signals
    the error state without any upload call; otherwise the object URL is
    set and uploadFile awaited, success storing the returned file and
    failure signalling the error state.  The statuses list drives the
    simulated remote; none is returned when the simulated poll sequence is
    exhausted (the run is still in flight). -/
def uploadVideo (st : AppVideoState) (dropped : Option DroppedFile)
    (statuses : List FileState) : Option PipelineOutcome :=
  let st1 : AppVideoState := { st with isLoadingVideo := true, videoError := false }
  match dropped with
  | none => some ⟨{ st1 with isLoadingVideo := false }, false, false⟩
  | some f =>
    if strStartsWith f.type "video/" then
      let st2 : AppVideoState := { st1 with vidUrl := some (createObjectURL f) }
      match uploadFileSim statuses with
      | none => none
      | some (Except.ok (res, _)) =>
        some ⟨{ st2 with file := some res, isLoadingVideo := false }, true, false⟩
      | some (Except.error _) =>
        some ⟨{ st2 with videoError := true, isLoadingVideo := false }, true, false⟩
    else
      some ⟨{ st1 with
                videoError := true
                isLoadingVideo := false
                vidUrl := none }, false, false⟩

/-- C2: a simulated [Pending, Failed] status sequence makes uploadFile throw
    the processing-failed error, and whenever uploadFile fails the caller
    uploadVideo catches it, signals the error state, and the run makes no
    generateContent call (generateCalled is false). -/
theorem uploadFile_failed_no_generation (st : AppVideoState)
    (f : DroppedFile) (statuses : List FileState) (e : UploadError)
    (hv : strStartsWith f.type "video/" = true)
    (he : uploadFileSim statuses = some (Except.error e)) :
    uploadFileSim ["PROCESSING", "FAILED"]
      = some (Except.error UploadError.processingFailed)
    ∧ uploadVideo st (some f) statuses
      = some ⟨{ st with
                  vidUrl := some (createObjectURL f)
                  videoError := true
                  isLoadingVideo := false }, true, false⟩ := by
  refine ⟨rfl, ?_⟩
  simp [uploadVideo, hv, he]

/-- Concrete instance of C2: the [Pending, Failed] run signals the error
    state and never reaches generation. -/
theorem uploadFile_failed_no_generation_witness :
    uploadFileSim ["PROCESSING", "FAILED"]
      = some (Except.error UploadError.processingFailed)
    ∧ uploadVideo ⟨none, none, false, false⟩ (some ⟨"video/mp4", "clip.mp4"⟩)
        ["PROCESSING", "FAILED"]
      = some ⟨⟨some "blob:clip.mp4", none, false, true⟩, true, false⟩ :=
  uploadFile_failed_no_generation ⟨none, none, false, false⟩
    ⟨"video/mp4", "clip.mp4"⟩ ["PROCESSING", "FAILED"]
    UploadError.processingFailed (by decide) rfl

/-- C8: a dropped file whose media type does not start with video/ yields
    the error state (videoError set, loading cleared, video URL cleared)
    with no upload call issued; conversely any completed run that did issue
    the upload call had a video/ media type. -/
theorem uploadVideo_rejects_non_video :
    (∀ (st : AppVideoState) (f : DroppedFile) (statuses : List FileState),
      strStartsWith f.type "video/" = false →
      uploadVideo st (some f) statuses
        = some ⟨{ st with
                    videoError := true
                    isLoadingVideo := false
                    vidUrl := none }, false, false⟩)
    ∧ (∀ (st : AppVideoState) (f : DroppedFile) (statuses : List FileState)
        (o : PipelineOutcome),
      uploadVideo st (some f) statuses = some o →
      o.uploadCalled = true →
      strStartsWith f.type "video/" = true) := by
  constructor
  · intro st f statuses h
    simp [uploadVideo, h]
  · intro st f statuses o ho hcalled
    by_cases h : strStartsWith f.type "video/" = true
    · exact h
    · rw [Bool.not_eq_true] at h
      simp [uploadVideo, h] at ho
      rw [← ho] at hcalled
      simp at hcalled

/-- Concrete instance of C8: an image/png drop signals the error state and
    issues no upload call. -/
theorem uploadVideo_rejects_non_video_witness :
    uploadVideo ⟨some "blob:old", none, false, false⟩
        (some ⟨"image/png", "pic.png"⟩) ["ACTIVE"]
      = some ⟨⟨none, none, false, true⟩, false, false⟩ :=
  uploadVideo_rejects_non_video.1 ⟨some "blob:old", none, false, false⟩
    ⟨"image/png", "pic.png"⟩ ["ACTIVE"] (by decide)

/-! ## Chart-mode sub-mode selection (src/App.tsx lines 59-71, 106-112,
    299-325) -/

/-- The slice of App state that decides the Chart-mode prompt input: the
    selected sub-mode (chartMode) and the typed custom text (chartPrompt). -/
structure ChartState where
  chartMode : String
  chartPrompt : String
deriving DecidableEq

/-- The UI events that touch that state: a preset button click runs
    setChartMode(mode) (src/App.tsx line 306), focusing the custom textarea
    runs setChartMode of the string Custom (line 322), and typing in it runs
    setChartPrompt (line 315). -/
inductive ChartEvent where
  | selectPreset (mode : String)
  | focusCustom
  | typeCustom (text : String)

/-- One state transition per UI event. -/
def stepChart : ChartState → ChartEvent → ChartState
  | s, ChartEvent.selectPreset m => { s with chartMode := m }
  | s, ChartEvent.focusCustom => { s with chartMode := "Custom" }
  | s, ChartEvent.typeCustom t => { s with chartPrompt := t }

/-- The chartInput selection of src/App.tsx lines 109-111: the typed custom
    text when the Custom sub-mode is active, otherwise the selected
    sub-mode's canned fragment from modes.Chart.subModes (kept abstract as a
    function, since modes.ts is outside the analysed sources). -/
def chartInput (subModes : String → String) (s : ChartState) : String :=
  if s.chartMode = "Custom" then s.chartPrompt else subModes s.chartMode

/-- The compiled Chart prompt (src/App.tsx line 112): modes.Chart.prompt,
    kept abstract, applied to the selected input. -/
def compileChartPrompt (prompt subModes : String → String)
    (s : ChartState) : String :=
  prompt (chartInput subModes s)

/-- C7: with a preset sub-mode selected the compiled prompt uses the
    preset's canned fragment whatever custom text is stored; the custom text
    wins exactly when the custom field was focused last; and for any state,
    typing after selecting a preset does not displace the preset, focusing
    the custom field makes the typed text win, and re-selecting the preset
    restores its priority. -/
theorem chart_preset_wins (prompt subModes : String → String)
    (s : ChartState) (m custom : String) (hm : m ≠ "Custom") :
    (∀ s', s'.chartMode ≠ "Custom" →
      compileChartPrompt prompt subModes s' = prompt (subModes s'.chartMode))
    ∧ (∀ s', s'.chartMode = "Custom" →
      compileChartPrompt prompt subModes s' = prompt s'.chartPrompt)
    ∧ compileChartPrompt prompt subModes
        (stepChart (stepChart s (ChartEvent.selectPreset m))
          (ChartEvent.typeCustom custom))
      = prompt (subModes m)
    ∧ compileChartPrompt prompt subModes
        (stepChart (stepChart (stepChart s (ChartEvent.selectPreset m))
          (ChartEvent.typeCustom custom)) ChartEvent.focusCustom)
      = prompt custom
    ∧ compileChartPrompt prompt subModes
        (stepChart (stepChart (stepChart (stepChart s
          (ChartEvent.selectPreset m)) (ChartEvent.typeCustom custom))
          ChartEvent.focusCustom) (ChartEvent.selectPreset m))
      = prompt (subModes m) := by
  refine ⟨?_, ?_, ?_, ?_, ?_⟩
  · intro s' h
    simp [compileChartPrompt, chartInput, h]
  · intro s' h
    simp [compileChartPrompt, chartInput, h]
  · simp [compileChartPrompt, chartInput, stepChart, hm]
  · simp [compileChartPrompt, chartInput, stepChart]
  · simp [compileChartPrompt, chartInput, stepChart, hm]

/-- Concrete instance of C7: with the Excitement preset selected and custom
    text typed but not focused, the preset fragment is compiled; after a
    focus the custom text is; after re-selecting the preset the fragment is
    again. -/
theorem chart_preset_wins_witness :
    compileChartPrompt (fun x => "P:" ++ x) (fun m => "F:" ++ m)
        (stepChart (stepChart ⟨"Excitement", ""⟩
          (ChartEvent.selectPreset "Excitement"))
          (ChartEvent.typeCustom "my own"))
      = "P:" ++ ("F:" ++ "Excitement")
    ∧ compileChartPrompt (fun x => "P:" ++ x) (fun m => "F:" ++ m)
        (stepChart (stepChart (stepChart ⟨"Excitement", ""⟩
          (ChartEvent.selectPreset "Excitement"))
          (ChartEvent.typeCustom "my own")) ChartEvent.focusCustom)
      = "P:" ++ "my own"
    ∧ compileChartPrompt (fun x => "P:" ++ x) (fun m => "F:" ++ m)
        (stepChart (stepChart (stepChart (stepChart ⟨"Excitement", ""⟩
          (ChartEvent.selectPreset "Excitement"))
          (ChartEvent.typeCustom "my own")) ChartEvent.focusCustom)
          (ChartEvent.selectPreset "Excitement"))
      = "P:" ++ ("F:" ++ "Excitement") := by
  have h := chart_preset_wins (fun x => "P:" ++ x) (fun m => "F:" ++ m)
    ⟨"Excitement", ""⟩ "Excitement" "my own" (by decide)
  exact ⟨h.2.2.1, h.2.2.2.1, h.2.2.2.2⟩

/-! ## Interleaved pipeline runs and the shared file state

Two uploadVideo runs share the single file state set by setFile
(src/App.tsx line 176).  A successful run's visible actions on the remote
and the shared state are its status queries followed by one setFile write;
uploadFile (src/api.ts lines 52-82) takes no cancellation token, so a run's
action trace is a function of its own status sequence only.  A schedule is
a list of (run, action) pairs; a schedule interleaves two runs when each
run's projection is exactly its trace. -/

/-- An observable action of one pipeline run: a status query against the
    remote, or the setFile write of the run's resulting handle into the
    shared state. -/
inductive RunAction where
  | query
  | setFile (handle : String)
deriving DecidableEq

/-- Names for two concurrent runs; A is the earlier-started one. -/
inductive RunId where
  | A
  | B
deriving DecidableEq

/-- The action trace of a successful run whose remote reports the given
    status sequence: its status queries, then the setFile write of its
    handle.  It is determined by the run's own statuses alone, since
    uploadFile checks no cancellation token. -/
def runTrace (statuses : List FileState) (handle : String) :
    Option (List RunAction) :=
  match uploadFileSim statuses with
  | some (Except.ok (_, n)) =>
    some (List.replicate n RunAction.query ++ [RunAction.setFile handle])
  | _ => none

/-- Execute a list of actions against the shared file state: queries leave
    it alone, each setFile overwrites it wholesale (React setState,
    src/App.tsx line 176). -/
def applyActions (init : Option String) (acts : List RunAction) :
    Option String :=
  acts.foldl
    (fun cur a =>
      match a with
      | RunAction.query => cur
      | RunAction.setFile h => some h)
    init

/-- The actions a given run performs within a schedule, in order. -/
def proj (r : RunId) (sched : List (RunId × RunAction)) : List RunAction :=
  (sched.filter (fun p => p.fst == r)).map Prod.snd

/-- Counterexample to C9 as stated: a concrete schedule interleaving an
    older run A (statuses [Pending, Ready], handle fileA) with a newer run B
    (statuses [Ready], handle fileB) in which B starts after A's first
    query, A still issues its second status query after B has started and
    even after B has completed (no cancellation token stops it), and A's
    completion overwrites the shared file state last, so the final shared
    file is stale fileA, not the newer run's fileB. -/
theorem stale_run_overwrites :
    runTrace ["PROCESSING", "ACTIVE"] "fileA"
      = some [RunAction.query, RunAction.query, RunAction.setFile "fileA"]
    ∧ runTrace ["ACTIVE"] "fileB"
      = some [RunAction.query, RunAction.setFile "fileB"]
    ∧ proj RunId.A
        [(RunId.A, RunAction.query), (RunId.B, RunAction.query),
         (RunId.B, RunAction.setFile "fileB"), (RunId.A, RunAction.query),
         (RunId.A, RunAction.setFile "fileA")]
      = [RunAction.query, RunAction.query, RunAction.setFile "fileA"]
    ∧ proj RunId.B
        [(RunId.A, RunAction.query), (RunId.B, RunAction.query),
         (RunId.B, RunAction.setFile "fileB"), (RunId.A, RunAction.query),
         (RunId.A, RunAction.setFile "fileA")]
      = [RunAction.query, RunAction.setFile "fileB"]
    ∧ applyActions none
        (List.map Prod.snd
          [(RunId.A, RunAction.query), (RunId.B, RunAction.query),
           (RunId.B, RunAction.setFile "fileB"), (RunId.A, RunAction.query),
           (RunId.A, RunAction.setFile "fileA")])
      = some "fileA"
    ∧ (some "fileA" : Option String) ≠ some "fileB" := by
  refine ⟨rfl, rfl, rfl, rfl, rfl, by decide⟩

/-- Folding actions that are all queries leaves the shared state alone. -/
theorem applyActions_queries (s : Option String) (post : List RunAction)
    (h : ∀ a ∈ post, a = RunAction.query) : applyActions s post = s := by
  induction post with
  | nil => rfl
  | cons a as ih =>
    have ha : a = RunAction.query := h a (List.mem_cons_self a as)
    subst ha
    exact ih fun a ha => h a (List.mem_cons_of_mem _ ha)

/-- C9 amended: there is no cancellation.  A successful run's trace is fixed
    by its own status sequence (all its queries are issued whatever other
    runs do), and the shared file state after any schedule is the handle of
    whichever setFile executed last — latest completed write wins, not the
    newest initiated run. -/
theorem last_completed_write_wins (init : Option String)
    (pre post : List RunAction) (handle : String)
    (statuses : List FileState) (gf : GetFile) (n : Nat)
    (hpost : ∀ a ∈ post, a = RunAction.query)
    (hup : uploadFileSim statuses = some (Except.ok (gf, n))) :
    runTrace statuses handle
      = some (List.replicate n RunAction.query ++ [RunAction.setFile handle])
    ∧ applyActions init (pre ++ RunAction.setFile handle :: post)
      = some handle := by
  constructor
  · simp [runTrace, hup]
  · have hsplit : applyActions init (pre ++ RunAction.setFile handle :: post)
        = applyActions (applyActions init pre)
            (RunAction.setFile handle :: post) := by
      simp [applyActions, List.foldl_append]
    rw [hsplit]
    have hstep : applyActions (applyActions init pre)
        (RunAction.setFile handle :: post)
        = applyActions (some handle) post := rfl
    rw [hstep]
    exact applyActions_queries (some handle) post hpost

/-- Concrete instance of the amended C9: after run B's write, run A's
    remaining query and final write make stale fileA the shared state. -/
theorem last_completed_write_wins_witness :
    runTrace ["ACTIVE"] "fileA"
      = some (List.replicate 1 RunAction.query ++ [RunAction.setFile "fileA"])
    ∧ applyActions none
        ([RunAction.query, RunAction.query, RunAction.setFile "fileB"]
          ++ RunAction.setFile "fileA" :: [RunAction.query])
      = some "fileA" :=
  last_completed_write_wins none
    [RunAction.query, RunAction.query, RunAction.setFile "fileB"]
    [RunAction.query] "fileA" ["ACTIVE"] ⟨"ACTIVE"⟩ 1
    (by decide) rfl

end VidAnalysis
